import Mathlib

/-!
Shallow embedding of the MITRE ATT&CK mapping application
(`mitre_mapping_app.py`, `heatmap_renderer.py`, `navigator_visualization.py`).

Strings are Lean `String`s; Python string primitives used by the program
(`'-' in s`, `s.split('-')[0]`, `s.strip()`) are modelled character-exactly
on `List Char`.  Python dicts that the program builds by insertion
(`techniques_count`, `tactics_by_shortname`) are modelled as association
lists with first-key update / last-write-wins lookup, matching dict
semantics.  The external sentence-embedding model and
`sentence_transformers.util.cos_sim` are opaque third-party calls; they are
modelled by an oracle `sim : String → List ℚ` giving the row of similarity
scores the library returns for a description, and `torch.argmax`, per its
documentation, returns the index of the first occurrence of the maximum.
Python float thresholds (`0.8` etc. in `get_severity_color`) are modelled by
exact rationals.
-/

namespace MitreApp

/-- Model of Python `c in s` for a single character `c`. -/
def pyContainsChar (c : Char) (s : String) : Bool :=
  s.data.contains c

/-- Model of Python `str.strip()` on a character list: drop whitespace from
both ends. -/
def pyStripChars (l : List Char) : List Char :=
  ((l.dropWhile Char.isWhitespace).reverse.dropWhile Char.isWhitespace).reverse

/-- Model of Python `str.strip()`. -/
def pyStrip (s : String) : String :=
  ⟨pyStripChars s.data⟩

/-- Model of Python `s.split(sep)[0]` for a one-character separator: the
prefix of `s` before the first occurrence of the separator. -/
def splitDashHead (s : String) : String :=
  ⟨s.data.takeWhile (fun c => c != '-')⟩

/-- The tally key the aggregation loop derives from a mapped-technique label:
`technique.split('-')[0].strip()` (main loop, `mitre_mapping_app.py`). -/
def keyOfLabel (s : String) : String :=
  pyStrip (splitDashHead s)

/-! ### STIX input documents -/

/-- One element of an object's `external_references` array. -/
structure ExternalRef where
  external_id : Option String
  url : Option String
deriving DecidableEq

/-- One element of an object's `kill_chain_phases` array. -/
structure KillChainPhase where
  phase_name : Option String
deriving DecidableEq

/-- A STIX object of the downloaded `enterprise-attack.json` document, with
the fields the application reads. -/
structure StixObject where
  type : String
  name : Option String
  description : Option String
  x_mitre_shortname : Option String
  external_references : List ExternalRef
  kill_chain_phases : List KillChainPhase
deriving DecidableEq

/-- `obj.get('external_references', [{}])[0].get('external_id', 'N/A')`.
An absent `external_references` key is modelled by the empty list (the
Python default `[{}]` then yields the `"N/A"` fallback; a present-but-empty
array would raise, aborting the whole load, a path the claims never reach). -/
def firstExternalId (refs : List ExternalRef) : String :=
  match refs with
  | [] => "N/A"
  | r :: _ => r.external_id.getD "N/A"

/-- `obj.get('external_references', [{}])[0].get('url', '')`. -/
def firstExternalUrl (refs : List ExternalRef) : String :=
  match refs with
  | [] => ""
  | r :: _ => r.url.getD ""

/-- The names of an object's kill-chain phases, in order
(`[phase['phase_name'] for phase in obj.get('kill_chain_phases', [])]`). -/
def phaseNames (o : StixObject) : List String :=
  o.kill_chain_phases.map (fun p => p.phase_name.getD "")

/-! ### Taxonomy loader (`load_mitre_data`, `mitre_mapping_app.py`) -/

/-- Simplified technique record built by `load_mitre_data`. -/
structure Technique where
  id : String
  name : String
  description : String
  tactic : String
  tactics_list : List String
  url : String
deriving DecidableEq

/-- The technique list returned by `load_mitre_data`: every `attack-pattern`
object whose first external id contains no dot, in document order. -/
def load_mitre_data_techniques (objs : List StixObject) : List Technique :=
  objs.filterMap fun o =>
    if o.type = "attack-pattern" then
      let tech_id := firstExternalId o.external_references
      if pyContainsChar '.' tech_id then none
      else some
        { id := tech_id
          name := o.name.getD "N/A"
          description := o.description.getD ""
          tactic := String.intercalate ", " (phaseNames o)
          tactics_list := phaseNames o
          url := firstExternalUrl o.external_references }
    else none

/-! ### Tactic ordering (`load_tactics_data`) -/

/-- Tactic record built by `load_tactics_data`. -/
structure TacticData where
  id : String
  name : String
  shortname : String
deriving DecidableEq

/-- The raw tactic list: every `x-mitre-tactic` object, in document order. -/
def load_tactics_raw (objs : List StixObject) : List TacticData :=
  objs.filterMap fun o =>
    if o.type = "x-mitre-tactic" then
      some
        { id := firstExternalId o.external_references
          name := o.name.getD "N/A"
          shortname := o.x_mitre_shortname.getD "" }
    else none

/-- Lookup in the `tactics_by_shortname` dict: the last tactic object written
under a shortname wins, as for a Python dict filled in a loop. -/
def shortnameLookup (ts : List TacticData) (s : String) : Option TacticData :=
  ts.reverse.find? (fun t => t.shortname = s)

/-- The fixed 14-phase canonical kill-chain sequence hardcoded in
`load_tactics_data`. -/
def kill_chain_order : List String :=
  ["reconnaissance", "resource-development", "initial-access",
   "execution", "persistence", "privilege-escalation", "defense-evasion",
   "credential-access", "discovery", "lateral-movement", "collection",
   "command-and-control", "exfiltration", "impact"]

/-- `load_tactics_data`: walk the canonical kill-chain order and keep the
tactics whose shortname occurs in the document. -/
def load_tactics_data (objs : List StixObject) : List TacticData :=
  kill_chain_order.filterMap (shortnameLookup (load_tactics_raw objs))

/-! ### Grouping techniques by tactic (`organize_techniques_by_tactic`) -/

/-- Technique record built by `organize_techniques_by_tactic`. -/
structure MatrixTechnique where
  id : String
  name : String
  description : String
  tactics : List String
deriving DecidableEq

/-- The `all_techniques` list of `organize_techniques_by_tactic`: non-sub
`attack-pattern` objects with their phase-name list. -/
def matrixTechniques (objs : List StixObject) : List MatrixTechnique :=
  objs.filterMap fun o =>
    if o.type = "attack-pattern" then
      let tech_id := firstExternalId o.external_references
      if pyContainsChar '.' tech_id then none
      else some
        { id := tech_id
          name := o.name.getD "N/A"
          description := o.description.getD ""
          tactics := phaseNames o }
    else none

/-- Contents of `techniques_by_tactic[tacticId]` after
`organize_techniques_by_tactic`: for each non-sub technique in document
order, for each of its phase names in order, for each sorted tactic in
order, the technique is appended whenever the phase name equals the
tactic's display name and that tactic's id is the key. -/
def organize_techniques_by_tactic (objs : List StixObject)
    (sorted_tactics : List TacticData) (tacticId : String) :
    List MatrixTechnique :=
  (matrixTechniques objs).flatMap fun T =>
    T.tactics.flatMap fun p =>
      sorted_tactics.filterMap fun t =>
        if p = t.name ∧ t.id = tacticId then some T else none

/-! ### Cell coloring (`get_severity_color`) -/

/-- `get_severity_color(count, max_count)`: bucketed cell color.  The Python
comparisons `count >= max_count * 0.8` (etc.) on ints and float literals are
modelled with exact rationals. -/
def get_severity_color (count max_count : ℕ) : String :=
  if count = 0 then "#ffffff"
  else if (max_count : ℚ) * 0.8 ≤ (count : ℚ) then "#ff6666"
  else if (max_count : ℚ) * 0.6 ≤ (count : ℚ) then "#ffb366"
  else if (max_count : ℚ) * 0.4 ≤ (count : ℚ) then "#ffcc66"
  else if (max_count : ℚ) * 0.2 ≤ (count : ℚ) then "#adebad"
  else "#d6f5d6"

/-! ### Matcher (`map_to_mitre`) -/

/-- First-occurrence argmax with its value: the index/value pair `torch`'s
`scores.argmax().item()` yields per the library's documented tie-breaking
(first maximal value).  `none` on an empty score row (where the library call
raises instead). -/
def pyArgmaxVI : List ℚ → Option (ℕ × ℚ)
  | [] => none
  | x :: xs =>
    match pyArgmaxVI xs with
    | none => some (0, x)
    | some (j, m) => if m ≤ x then some (0, x) else some (j + 1, m)

/-- The index selected by `scores.argmax().item()`. -/
def pyArgmax (l : List ℚ) : Option ℕ :=
  (pyArgmaxVI l).map Prod.fst

/-- The sentinel returned by `map_to_mitre` when model or embeddings are
unavailable. -/
def naSentinel : String × String × String × List String :=
  ("N/A", "N/A", "N/A", [])

/-- The sentinel returned by `map_to_mitre` from its `except` clause. -/
def errorSentinel : String × String × String × List String :=
  ("Error", "Error", "Error", [])

/-- The successful return value of `map_to_mitre` for a matched technique:
`(best_tech['tactic'], f"{id} - {name}", best_tech['url'], tactics_list)`. -/
def mkResult (t : Technique) : String × String × String × List String :=
  (t.tactic, t.id ++ " - " ++ t.name, t.url, t.tactics_list)

/-- The try-block of `map_to_mitre`: select the argmax of the score row and
index the technique list with it.  The `except` clause (argmax on an empty
tensor, index out of range) yields the `"Error"` sentinel. -/
def matchScores (scores : List ℚ) (mitre_techniques : List Technique) :
    String × String × String × List String :=
  match pyArgmax scores with
  | none => errorSentinel
  | some i =>
    match mitre_techniques[i]? with
    | none => errorSentinel
    | some t => mkResult t

/-- `map_to_mitre(description, model, mitre_techniques, mitre_embeddings)`.
`sim` is the oracle for `util.cos_sim(model.encode(description),
mitre_embeddings)[0]`. -/
def map_to_mitre (sim : String → List ℚ) (description : String)
    (model : Option Unit) (mitre_techniques : List Technique)
    (mitre_embeddings : Option (List (List ℚ))) :
    String × String × String × List String :=
  match model, mitre_embeddings with
  | some _, some _ => matchScores (sim description) mitre_techniques
  | _, _ => naSentinel

/-! ### Coverage tally (aggregation loop in `main`) -/

/-- Lookup with default in an insertion-ordered dict:
`d.get(k, v0)` (first matching key). -/
def dictGetD (d : List (String × ℕ)) (k : String) (v₀ : ℕ) : ℕ :=
  match d.find? (fun kv => kv.1 = k) with
  | some kv => kv.2
  | none => v₀

/-- `d[k] = v` on an insertion-ordered dict: overwrite the first occurrence
of the key, else append. -/
def dictSet : List (String × ℕ) → String → ℕ → List (String × ℕ)
  | [], k, v => [(k, v)]
  | kv :: rest, k, v =>
    if kv.1 = k then (k, v) :: rest else kv :: dictSet rest k v

/-- `techniques_count[tech_id] = techniques_count.get(tech_id, 0) + 1`. -/
def dictIncr (d : List (String × ℕ)) (k : String) : List (String × ℕ) :=
  dictSet d k (dictGetD d k 0 + 1)

/-- One iteration of the aggregation loop in `main`:
`if '-' in technique: techniques_count[technique.split('-')[0].strip()] += 1`. -/
def tallyStep (tally : List (String × ℕ)) (technique : String) :
    List (String × ℕ) :=
  if pyContainsChar '-' technique then dictIncr tally (keyOfLabel technique)
  else tally

/-- The `techniques_count` dict after the whole aggregation loop. -/
def buildTally (labels : List String) : List (String × ℕ) :=
  labels.foldl tallyStep []

/-- Sum of the values of the tally. -/
def sumValues (d : List (String × ℕ)) : ℕ :=
  (d.map (fun kv => kv.2)).sum

/-- Whether a `map_to_mitre` outcome is a real match rather than the
`"N/A"` or `"Error"` sentinel, judged on its technique label. -/
def matchSucceeded (r : String × String × String × List String) : Bool :=
  r.2.1 != "N/A" && r.2.1 != "Error"

/-! ### Matrix renderer (`render_attack_matrix`) -/

/-- `max(techniques_count.values()) if techniques_count else 1`. -/
def maxTallyValue (tally : List (String × ℕ)) : ℕ :=
  if tally.isEmpty then 1 else (tally.map (fun kv => kv.2)).foldl max 0

/-- The row/cell structure of the HTML emitted by `render_attack_matrix`:
one row per sorted tactic, and per row one cell per element of
`techniques_by_tactic.get(tactic_id, [])`, carrying the technique, its
count `techniques_count.get(tech_id, 0)` and its severity color. -/
def render_attack_matrix_rows (objs : List StixObject)
    (techniques_count : List (String × ℕ)) :
    List (TacticData × List (MatrixTechnique × ℕ × String)) :=
  let max_count := maxTallyValue techniques_count
  let sorted_tactics := load_tactics_data objs
  sorted_tactics.map fun t =>
    (t, (organize_techniques_by_tactic objs sorted_tactics t.id).map fun T =>
      (T, dictGetD techniques_count T.id 0,
        get_severity_color (dictGetD techniques_count T.id 0) max_count))

/-! ### Upload processing (`main`) -/

/-- The uploaded table: column names and rows as column-to-value maps. -/
structure DataFrame where
  columns : List String
  rows : List (List (String × String))
deriving DecidableEq

/-- Value of a row at a column. -/
def rowGet (row : List (String × String)) (c : String) : String :=
  match row.find? (fun kv => kv.1 = c) with
  | some kv => kv.2
  | none => ""

/-- `'Description' if 'Description' in df.columns else 'description' if
'description' in df.columns else None`. -/
def requiredColumn (cols : List String) : Option String :=
  if cols.contains "Description" then some "Description"
  else if cols.contains "description" then some "description"
  else none

/-- Everything `main` produces from an accepted upload: the augmented
column list, the mapped-technique column, the coverage tally and the
rendered matrix structure. -/
structure ProcessedOutput where
  out_columns : List String
  mapped_techniques : List String
  techniques_count : List (String × ℕ)
  matrix_rows : List (TacticData × List (MatrixTechnique × ℕ × String))
deriving DecidableEq

/-- The upload-processing block of `main`: reject the table when neither
`Description` nor `description` is a column (reporting the error before any
mutation), otherwise map every row, aggregate the tally and render. -/
def process_upload (sim : String → List ℚ) (model : Option Unit)
    (techs : List Technique) (embs : Option (List (List ℚ)))
    (objs : List StixObject) (df : DataFrame) :
    Except String ProcessedOutput :=
  match requiredColumn df.columns with
  | none => Except.error "Your CSV must contain a Description column."
  | some c =>
    let labels := df.rows.map fun r =>
      (map_to_mitre sim (rowGet r c) model techs embs).2.1
    let tally := buildTally labels
    Except.ok
      { out_columns := df.columns ++
          ["Mapped MITRE Tactic(s)",
           "Mapped MITRE Technique(s)/Sub-techniques",
           "Reference Resource(s)"]
        mapped_techniques := labels
        techniques_count := tally
        matrix_rows := render_attack_matrix_rows objs tally }

/-! ### Concrete inputs used by witnesses -/

/-- A single-technique taxonomy, as `load_mitre_data` would simplify it. -/
def oneTech : Technique :=
  { id := "T1", name := "x", description := "", tactic := "",
    tactics_list := [], url := "" }

/-- A three-technique taxonomy used to exercise argmax tie-breaking. -/
def threeTechs : List Technique :=
  [{ id := "Ta", name := "a", description := "", tactic := "",
     tactics_list := [], url := "" },
   { id := "Tb", name := "b", description := "", tactic := "",
     tactics_list := [], url := "" },
   { id := "Tc", name := "c", description := "", tactic := "",
     tactics_list := [], url := "" }]

/-- A score-row oracle with a tied maximum. -/
def tiedSim : String → List ℚ := fun _ => [2, 3, 3]

/-- A one-score oracle. -/
def oneSim : String → List ℚ := fun _ => [1]

/-- A two-tactic document listing `impact` before `initial-access`. -/
def twoTacticDoc : List StixObject :=
  [{ type := "x-mitre-tactic", name := some "Impact",
     description := none, x_mitre_shortname := some "impact",
     external_references := [{ external_id := some "TA0040", url := some "" }],
     kill_chain_phases := [] },
   { type := "x-mitre-tactic", name := some "Initial Access",
     description := none, x_mitre_shortname := some "initial-access",
     external_references := [{ external_id := some "TA0001", url := some "" }],
     kill_chain_phases := [] }]

/-- A one-tactic, one-technique document. -/
def smallDoc : List StixObject :=
  [{ type := "x-mitre-tactic", name := some "Initial Access",
     description := none, x_mitre_shortname := some "initial-access",
     external_references := [{ external_id := some "TA0001", url := some "" }],
     kill_chain_phases := [] },
   { type := "attack-pattern", name := some "Phishing",
     description := some "d", x_mitre_shortname := none,
     external_references := [{ external_id := some "T1566", url := some "u" }],
     kill_chain_phases := [{ phase_name := some "Initial Access" }] }]

/-- A document whose only technique has a dash inside its id. -/
def dashIdDoc : List StixObject :=
  [{ type := "attack-pattern", name := some "x",
     description := some "", x_mitre_shortname := none,
     external_references := [{ external_id := some "A-B", url := some "" }],
     kill_chain_phases := [] }]

/-- A technique whose id ends in a blank but contains no dash. -/
def paddedIdTech : Technique :=
  { id := "T1 ", name := "x", description := "", tactic := "",
    tactics_list := [], url := "" }

/-- The technique `load_mitre_data` extracts from `smallDoc`. -/
def phishTech : Technique :=
  { id := "T1566", name := "Phishing", description := "d",
    tactic := "Initial Access", tactics_list := ["Initial Access"],
    url := "u" }

/-- Casting bridge for the color thresholds: `max_count * (n/5) <= count`
over ℚ is the integer comparison `n * max_count ≤ 5 * count`. -/
lemma ratioCastLe (n count max_count : ℕ) :
    ((max_count : ℚ) * ((n : ℚ) / 5) ≤ (count : ℚ)) ↔
      n * max_count ≤ 5 * count := by
  rw [show (max_count : ℚ) * ((n : ℚ) / 5) = ((n * max_count : ℕ) : ℚ) / 5 by
        push_cast; ring,
    div_le_iff₀ (by norm_num : (0 : ℚ) < 5),
    show ((count : ℚ) * 5) = ((5 * count : ℕ) : ℚ) by push_cast; ring]
  exact_mod_cast Iff.rfl

/-- The color buckets in integer arithmetic. -/
lemma get_severity_color_buckets (count max_count : ℕ) :
    get_severity_color count max_count =
      if count = 0 then "#ffffff"
      else if 4 * max_count ≤ 5 * count then "#ff6666"
      else if 3 * max_count ≤ 5 * count then "#ffb366"
      else if 2 * max_count ≤ 5 * count then "#ffcc66"
      else if 1 * max_count ≤ 5 * count then "#adebad"
      else "#d6f5d6" := by
  have h8 := ratioCastLe 4 count max_count
  have h6 := ratioCastLe 3 count max_count
  have h4 := ratioCastLe 2 count max_count
  have h2 := ratioCastLe 1 count max_count
  rw [show ((4 : ℕ) : ℚ) / 5 = 0.8 by norm_num] at h8
  rw [show ((3 : ℕ) : ℚ) / 5 = 0.6 by norm_num] at h6
  rw [show ((2 : ℕ) : ℚ) / 5 = 0.4 by norm_num] at h4
  rw [show ((1 : ℕ) : ℚ) / 5 = 0.2 by norm_num] at h2
  unfold get_severity_color
  simp only [h8, h6, h4, h2]

/-! ### Helper lemmas: Python string primitives -/

lemma pyContainsChar_iff (c : Char) (s : String) :
    pyContainsChar c s = true ↔ c ∈ s.data := by
  simp [pyContainsChar, List.contains]

lemma mem_pyStripChars {l : List Char} {c : Char} (h : c ∈ pyStripChars l) :
    c ∈ l := by
  unfold pyStripChars at h
  rw [List.mem_reverse] at h
  have h1 := (List.dropWhile_sublist _).mem h
  rw [List.mem_reverse] at h1
  exact (List.dropWhile_sublist _).mem h1

/-- Stripping ignores a trailing blank. -/
lemma pyStripChars_append_space (l : List Char) :
    pyStripChars (l ++ [' ']) = pyStripChars l := by
  unfold pyStripChars
  induction l with
  | nil => rfl
  | cons x xs ih =>
    by_cases hx : x.isWhitespace
    · simpa [List.dropWhile_cons, hx] using ih
    · simp only [List.cons_append, List.dropWhile_cons, hx, Bool.false_eq_true,
        if_false, List.reverse_cons]
      rw [show (xs ++ [' ']).reverse = ' ' :: xs.reverse by simp]
      simp [List.dropWhile_cons]

/-- `takeWhile` for the dash split over `id ++ " - " ++ name` stops inside
the separator: it returns the id followed by one blank, provided the id
itself has no dash. -/
lemma takeWhile_label_of_no_dash {l : List Char} (h : ∀ c ∈ l, c ≠ '-')
    (rest : List Char) :
    (l ++ ' ' :: '-' :: rest).takeWhile (fun c => c != '-') = l ++ [' '] := by
  induction l with
  | nil => rfl
  | cons x xs ih =>
    have hx : x ≠ '-' := h x (by simp)
    rw [List.cons_append]
    simp only [List.takeWhile_cons, show (x != '-') = true by simp [hx],
      if_true]
    rw [ih (fun c hc => h c (by simp [hc]))]
    rfl

/-- Every character that the dash split keeps from `id ++ " - " ++ name` is
a character of the id or a blank. -/
lemma mem_takeWhile_label {l rest : List Char} {c : Char}
    (h : c ∈ (l ++ ' ' :: '-' :: rest).takeWhile (fun c => c != '-')) :
    c ∈ l ∨ c = ' ' := by
  induction l with
  | nil =>
    simp only [List.nil_append, List.takeWhile_cons] at h
    simp at h
    simp [h]
  | cons x xs ih =>
    by_cases hx : x = '-'
    · subst hx
      simp [List.takeWhile_cons] at h
    · simp only [List.cons_append, List.takeWhile_cons, bne_iff_ne, ne_eq, hx,
        not_false_eq_true, decide_eq_true_eq, if_pos, List.mem_cons] at h
      rcases h with h | h
      · exact Or.inl (by simp [h])
      · rcases ih h with h1 | h1
        · exact Or.inl (by simp [h1])
        · exact Or.inr h1

/-- The characters of a successful label. -/
lemma label_data (t : Technique) :
    (t.id ++ " - " ++ t.name).data =
      t.id.data ++ ' ' :: '-' :: ' ' :: t.name.data := by
  rw [String.data_append, String.data_append, List.append_assoc]
  congr 1

/-- Every character of the tally key of a successful label is a character of
the technique id or a blank. -/
lemma mem_keyOfLabel_chars {t : Technique} {c : Char}
    (h : c ∈ (keyOfLabel (t.id ++ " - " ++ t.name)).data) :
    c ∈ t.id.data ∨ c = ' ' := by
  unfold keyOfLabel pyStrip splitDashHead at h
  simp only at h
  have h1 := mem_pyStripChars h
  rw [label_data t] at h1
  exact mem_takeWhile_label h1

/-- The tally key recovers the technique id exactly when the id has no dash
and is unchanged by stripping. -/
lemma keyOfLabel_eq_id {t : Technique}
    (h1 : pyContainsChar '-' t.id = false)
    (h2 : pyStrip t.id = t.id) :
    keyOfLabel (t.id ++ " - " ++ t.name) = t.id := by
  have hnd : ∀ c ∈ t.id.data, c ≠ '-' := by
    intro c hc he
    subst he
    have := (pyContainsChar_iff '-' t.id).mpr hc
    rw [h1] at this
    exact Bool.false_ne_true this
  unfold keyOfLabel pyStrip splitDashHead
  rw [label_data t, takeWhile_label_of_no_dash hnd, pyStripChars_append_space]
  have : pyStripChars t.id.data = t.id.data := congrArg String.data h2
  rw [this]

/-! ### Helper lemmas: the tally dict -/

/-- Incrementing a key raises the sum of the tally values by exactly one. -/
lemma sumValues_dictIncr (d : List (String × ℕ)) (k : String) :
    sumValues (dictIncr d k) = sumValues d + 1 := by
  induction d with
  | nil => rfl
  | cons kv rest ih =>
    by_cases hk : kv.1 = k
    · simp [dictIncr, dictSet, dictGetD, List.find?_cons, hk, sumValues,
        Nat.add_assoc, Nat.add_comm, Nat.add_left_comm]
    · have : dictIncr (kv :: rest) k = kv :: dictIncr rest k := by
        simp [dictIncr, dictSet, dictGetD, List.find?_cons, hk]
      rw [this]
      simp [sumValues] at ih ⊢
      omega

/-- Membership after a dict write: an element of the updated dict was
already present or is the written pair. -/
lemma mem_dictSet {k : String} {v : ℕ} {kv : String × ℕ} :
    ∀ d : List (String × ℕ), kv ∈ dictSet d k v → kv ∈ d ∨ kv = (k, v) := by
  intro d
  induction d with
  | nil =>
    intro h
    simp [dictSet] at h
    simp [h]
  | cons a rest ih =>
    intro h
    by_cases ha : a.1 = k
    · rw [show dictSet (a :: rest) k v = (k, v) :: rest by
          simp [dictSet, ha]] at h
      rcases List.mem_cons.mp h with h | h
      · exact Or.inr h
      · exact Or.inl (List.mem_cons_of_mem a h)
    · rw [show dictSet (a :: rest) k v = a :: dictSet rest k v by
          simp [dictSet, ha]] at h
      rcases List.mem_cons.mp h with h | h
      · exact Or.inl (by simp [h])
      · rcases ih h with h1 | h1
        · exact Or.inl (List.mem_cons_of_mem a h1)
        · exact Or.inr h1

/-- Membership after an increment. -/
lemma mem_dictIncr {d : List (String × ℕ)} {k : String} {kv : String × ℕ}
    (h : kv ∈ dictIncr d k) :
    kv ∈ d ∨ (kv.1 = k ∧ 1 ≤ kv.2) := by
  rcases mem_dictSet d h with h1 | h1
  · exact Or.inl h1
  · refine Or.inr ?_
    rw [h1]
    exact ⟨rfl, Nat.le_add_left 1 _⟩

/-- Every pair of the tally built by the aggregation loop either was in the
initial dict, or has as key the dash-split key of some dash-containing label
and a positive count. -/
lemma mem_foldl_tallyStep (labels : List String) {kv : String × ℕ} :
    ∀ init : List (String × ℕ), kv ∈ labels.foldl tallyStep init →
    kv ∈ init ∨
      ∃ l ∈ labels, pyContainsChar '-' l = true ∧ kv.1 = keyOfLabel l ∧
        1 ≤ kv.2 := by
  induction labels with
  | nil => exact fun init h => Or.inl h
  | cons l ls ih =>
    intro init h
    rw [List.foldl_cons] at h
    rcases ih (tallyStep init l) h with h1 | h1
    · unfold tallyStep at h1
      by_cases hd : pyContainsChar '-' l = true
      · rw [if_pos hd] at h1
        rcases mem_dictIncr h1 with h2 | h2
        · exact Or.inl h2
        · exact Or.inr ⟨l, by simp, hd, h2.1, h2.2⟩
      · rw [if_neg hd] at h1
        exact Or.inl h1
    · rcases h1 with ⟨l', hl', hd', hk', hv'⟩
      exact Or.inr ⟨l', List.mem_cons_of_mem l hl', hd', hk', hv'⟩

/-- The sum of the tally values after the aggregation loop counts exactly
the dash-containing labels. -/
lemma sumValues_foldl_tallyStep (labels : List String) :
    ∀ init : List (String × ℕ),
    sumValues (labels.foldl tallyStep init) =
      sumValues init + labels.countP (fun l => pyContainsChar '-' l) := by
  induction labels with
  | nil => simp
  | cons l ls ih =>
    intro init
    rw [List.foldl_cons, ih (tallyStep init l)]
    unfold tallyStep
    by_cases hd : pyContainsChar '-' l = true
    · rw [if_pos hd, sumValues_dictIncr]
      simp [List.countP_cons, hd]
      omega
    · rw [if_neg hd]
      simp only [List.countP_cons]
      rw [show (pyContainsChar '-' l) = false by
        exact Bool.eq_false_iff.mpr (fun hc => hd hc)]
      simp

/-! ### Helper lemmas: the argmax -/

/-- Specification of the first-occurrence argmax: the selected index is in
bounds, holds the returned value, no score exceeds it, and every earlier
score is strictly below it. -/
lemma pyArgmaxVI_cons_ne_none (x : ℚ) (xs : List ℚ) :
    pyArgmaxVI (x :: xs) ≠ none := by
  unfold pyArgmaxVI
  cases pyArgmaxVI xs with
  | none => simp
  | some jm =>
    obtain ⟨j, m⟩ := jm
    by_cases hmx : m ≤ x <;> simp [hmx]

lemma pyArgmaxVI_spec (l : List ℚ) : ∀ (i : ℕ) (m : ℚ),
    pyArgmaxVI l = some (i, m) →
    i < l.length ∧ l[i]? = some m ∧
      (∀ j : ℕ, ∀ x ∈ l[j]?, x ≤ m) ∧
      (∀ j : ℕ, j < i → ∀ x ∈ l[j]?, x < m) := by
  induction l with
  | nil => intro i m h; simp [pyArgmaxVI] at h
  | cons x xs ih =>
    intro i m h
    cases hx : pyArgmaxVI xs with
    | none =>
      cases xs with
      | cons y ys => exact absurd hx (pyArgmaxVI_cons_ne_none y ys)
      | nil =>
        have h' : (some (0, x) : Option (ℕ × ℚ)) = some (i, m) := h
        have h2 := Option.some.inj h'
        obtain ⟨hi, hm⟩ : 0 = i ∧ x = m :=
          ⟨congrArg Prod.fst h2, congrArg Prod.snd h2⟩
        subst hi; subst hm
        refine ⟨by simp, by simp, ?_, ?_⟩
        · intro j y hy
          cases j with
          | zero => simp at hy; simp [hy]
          | succ j => simp at hy
        · intro j hj
          exact absurd hj (Nat.not_lt_zero j)
    | some jm =>
      obtain ⟨j, m'⟩ := jm
      have hspec := ih j m' hx
      unfold pyArgmaxVI at h
      rw [hx] at h
      have h' : (if m' ≤ x then some (0, x) else some (j + 1, m')) =
          some (i, m) := h
      by_cases hmx : m' ≤ x
      · rw [if_pos hmx] at h'
        have h2 := Option.some.inj h'
        obtain ⟨hi, hm⟩ : 0 = i ∧ x = m :=
          ⟨congrArg Prod.fst h2, congrArg Prod.snd h2⟩
        subst hi; subst hm
        refine ⟨by simp, by simp, ?_, ?_⟩
        · intro k y hy
          cases k with
          | zero => simp at hy; simp [hy]
          | succ k =>
            simp only [List.getElem?_cons_succ] at hy
            exact le_trans (hspec.2.2.1 k y hy) hmx
        · intro k hk
          exact absurd hk (Nat.not_lt_zero k)
      · rw [if_neg hmx] at h'
        have h2 := Option.some.inj h'
        obtain ⟨hi, hm⟩ : j + 1 = i ∧ m' = m :=
          ⟨congrArg Prod.fst h2, congrArg Prod.snd h2⟩
        subst hi; subst hm
        push_neg at hmx
        refine ⟨by simpa using hspec.1, by simpa using hspec.2.1, ?_, ?_⟩
        · intro k y hy
          cases k with
          | zero => simp at hy; subst hy; exact le_of_lt hmx
          | succ k =>
            simp only [List.getElem?_cons_succ] at hy
            exact hspec.2.2.1 k y hy
        · intro k hk y hy
          cases k with
          | zero => simp at hy; subst hy; exact hmx
          | succ k =>
            simp only [List.getElem?_cons_succ] at hy
            exact hspec.2.2.2 k (by omega) y hy

/-- Specification of `pyArgmax`. -/
lemma pyArgmax_spec (l : List ℚ) (i : ℕ) (h : pyArgmax l = some i) :
    ∃ m, i < l.length ∧ l[i]? = some m ∧
      (∀ j : ℕ, ∀ x ∈ l[j]?, x ≤ m) ∧
      (∀ j : ℕ, j < i → ∀ x ∈ l[j]?, x < m) := by
  unfold pyArgmax at h
  cases hvi : pyArgmaxVI l with
  | none => rw [hvi] at h; simp at h
  | some im =>
    obtain ⟨i', m⟩ := im
    rw [hvi] at h
    simp at h
    subst h
    exact ⟨m, pyArgmaxVI_spec l i' m hvi⟩

/-- `pyArgmax` succeeds on any nonempty score row. -/
lemma pyArgmax_isSome {l : List ℚ} (h : l ≠ []) :
    ∃ i, pyArgmax l = some i := by
  cases l with
  | nil => exact absurd rfl h
  | cons x xs =>
    unfold pyArgmax
    cases hx : pyArgmaxVI (x :: xs) with
    | none => exact absurd hx (pyArgmaxVI_cons_ne_none x xs)
    | some im => exact ⟨im.1, rfl⟩

/-! ### Helper lemmas: the matcher -/

/-- `matchScores` when the argmax fails. -/
lemma matchScores_of_argmax_none {scores : List ℚ} (techs : List Technique)
    (h : pyArgmax scores = none) :
    matchScores scores techs = errorSentinel := by
  unfold matchScores
  rw [h]

/-- `matchScores` when the argmax yields an index. -/
lemma matchScores_of_argmax_some {scores : List ℚ} {i : ℕ}
    (techs : List Technique) (h : pyArgmax scores = some i) :
    matchScores scores techs =
      match techs[i]? with
      | none => errorSentinel
      | some t => mkResult t := by
  unfold matchScores
  rw [h]

/-- Case analysis mirroring `matchScores`: the result is a sentinel or a
technique of the list. -/
lemma matchScores_cases (scores : List ℚ) (techs : List Technique) :
    matchScores scores techs = errorSentinel ∨
    ∃ t ∈ techs, matchScores scores techs = mkResult t := by
  cases hA : pyArgmax scores with
  | none => exact Or.inl (matchScores_of_argmax_none techs hA)
  | some i =>
    rw [matchScores_of_argmax_some techs hA]
    cases ht : techs[i]? with
    | none => exact Or.inl rfl
    | some t => exact Or.inr ⟨t, List.getElem?_mem ht, rfl⟩

/-- Case analysis mirroring `map_to_mitre`: either both model and embeddings
are available and the result is a sentinel or a matched technique, or the
`"N/A"` sentinel is returned. -/
lemma map_to_mitre_cases (sim : String → List ℚ) (description : String)
    (model : Option Unit) (techs : List Technique)
    (embs : Option (List (List ℚ))) :
    map_to_mitre sim description model techs embs = naSentinel ∨
    map_to_mitre sim description model techs embs = errorSentinel ∨
    ∃ t ∈ techs,
      map_to_mitre sim description model techs embs = mkResult t := by
  cases model with
  | none => exact Or.inl rfl
  | some u =>
    cases embs with
    | none => exact Or.inl rfl
    | some es =>
      have heq : map_to_mitre sim description (some u) techs (some es) =
          matchScores (sim description) techs := rfl
      rw [heq]
      rcases matchScores_cases (sim description) techs with h | ⟨t, ht, h⟩
      · exact Or.inr (Or.inl h)
      · exact Or.inr (Or.inr ⟨t, ht, h⟩)

/-- A successful label contains a dash. -/
lemma dash_mem_mkResult (t : Technique) :
    pyContainsChar '-' (mkResult t).2.1 = true := by
  rw [pyContainsChar_iff]
  show '-' ∈ (t.id ++ " - " ++ t.name).data
  rw [label_data t]
  simp

/-- The sentinels contain no dash. -/
lemma sentinels_no_dash :
    pyContainsChar '-' naSentinel.2.1 = false ∧
      pyContainsChar '-' errorSentinel.2.1 = false := by
  decide

/-- A successful label differs from both sentinel labels. -/
lemma mkResult_ne_sentinels (t : Technique) :
    (mkResult t).2.1 ≠ "N/A" ∧ (mkResult t).2.1 ≠ "Error" := by
  constructor <;> intro h
  · have := dash_mem_mkResult t
    rw [h] at this
    exact absurd this (by decide)
  · have := dash_mem_mkResult t
    rw [h] at this
    exact absurd this (by decide)

/-! ### Helper lemmas: the loaders -/

/-- Every technique kept by `load_mitre_data` has a dot-free id. -/
lemma load_mitre_data_no_dot {objs : List StixObject} {t : Technique}
    (h : t ∈ load_mitre_data_techniques objs) :
    pyContainsChar '.' t.id = false := by
  unfold load_mitre_data_techniques at h
  rw [List.mem_filterMap] at h
  obtain ⟨o, _, ho⟩ := h
  by_cases hty : o.type = "attack-pattern"
  · rw [if_pos hty] at ho
    by_cases hdot : pyContainsChar '.' (firstExternalId o.external_references)
    · rw [if_pos hdot] at ho
      exact absurd ho (by simp)
    · rw [if_neg hdot] at ho
      have : t.id = firstExternalId o.external_references := by
        cases ho; rfl
      rw [this]
      exact Bool.eq_false_iff.mpr hdot
  · rw [if_neg hty] at ho
    exact absurd ho (by simp)

/-- A successful `shortnameLookup` returns a tactic with the looked-up
shortname, drawn from the raw list. -/
lemma shortnameLookup_some {ts : List TacticData} {s : String}
    {t : TacticData} (h : shortnameLookup ts s = some t) :
    t.shortname = s ∧ t ∈ ts := by
  unfold shortnameLookup at h
  constructor
  · have := List.find?_some h
    simpa using this
  · have := List.mem_of_find?_eq_some h
    exact List.mem_reverse.mp this

/-- `shortnameLookup` succeeds exactly when some raw tactic carries the
shortname. -/
lemma shortnameLookup_isSome (ts : List TacticData) (s : String) :
    (shortnameLookup ts s).isSome = true ↔ ∃ t ∈ ts, t.shortname = s := by
  unfold shortnameLookup
  rw [List.find?_isSome]
  constructor
  · rintro ⟨t, ht, hs⟩
    exact ⟨t, List.mem_reverse.mp ht, by simpa using hs⟩
  · rintro ⟨t, ht, hs⟩
    exact ⟨t, List.mem_reverse.mpr ht, by simpa using hs⟩

/-- The shortnames selected from any kill-chain list are the entries of that
list for which the document has a matching tactic. -/
lemma filterMap_shortnames (kc : List String) (raw : List TacticData) :
    (kc.filterMap (shortnameLookup raw)).map (fun t => t.shortname) =
      kc.filter (fun p => raw.any (fun t => t.shortname = p)) := by
  induction kc with
  | nil => rfl
  | cons p kc ih =>
    rw [List.filterMap_cons, List.filter_cons]
    cases hp : shortnameLookup raw p with
    | none =>
      have : raw.any (fun t => t.shortname = p) = false := by
        rw [← Bool.not_eq_true]
        intro hc
        rw [List.any_eq_true] at hc
        obtain ⟨t, ht, hs⟩ := hc
        have : (shortnameLookup raw p).isSome = true :=
          (shortnameLookup_isSome raw p).mpr ⟨t, ht, by simpa using hs⟩
        rw [hp] at this
        simp at this
      rw [this]
      simpa using ih
    | some t =>
      have hsome : (shortnameLookup raw p).isSome = true := by
        rw [hp]; rfl
      obtain ⟨t', ht', hs'⟩ := (shortnameLookup_isSome raw p).mp hsome
      have : raw.any (fun t => t.shortname = p) = true := by
        rw [List.any_eq_true]
        exact ⟨t', ht', by simpa using hs'⟩
      rw [this]
      simp only [if_true, List.map_cons]
      rw [ih, (shortnameLookup_some hp).1]

/-- The dash test used by the aggregation loop agrees with "the match did
not return a sentinel" on every `map_to_mitre` outcome. -/
lemma dash_iff_success (sim : String → List ℚ) (d : String)
    (model : Option Unit) (techs : List Technique)
    (embs : Option (List (List ℚ))) :
    pyContainsChar '-' ((map_to_mitre sim d model techs embs).2.1) =
      matchSucceeded (map_to_mitre sim d model techs embs) := by
  rcases map_to_mitre_cases sim d model techs embs with h | h | ⟨t, _, h⟩ <;>
    rw [h]
  · decide
  · decide
  · have hb1 : ((mkResult t).2.1 != "N/A") = true :=
      bne_iff_ne.mpr (mkResult_ne_sentinels t).1
    have hb2 : ((mkResult t).2.1 != "Error") = true :=
      bne_iff_ne.mpr (mkResult_ne_sentinels t).2
    rw [dash_mem_mkResult t]
    unfold matchSucceeded
    rw [hb1, hb2]
    rfl

/-- The key of a successful label contains no dot when the technique id
contains none. -/
lemma no_dot_keyOfLabel {t : Technique}
    (h : pyContainsChar '.' t.id = false) :
    pyContainsChar '.' (keyOfLabel ((mkResult t).2.1)) = false := by
  rw [Bool.eq_false_iff]
  intro hc
  rw [pyContainsChar_iff] at hc
  have := mem_keyOfLabel_chars (t := t) hc
  rcases this with h1 | h1
  · have hx := (pyContainsChar_iff '.' t.id).mpr h1
    rw [h] at hx
    exact absurd hx (by decide)
  · exact absurd h1 (by decide)

/-! ### Claim theorems -/

/-- Claim C2, counterexample: with the tally `{"T1059": 3, "T1566": 1}` and
max = 3, T1566's cell (count 1, i.e. 33% of max) is colored `"#adebad"`
(the 20-40% "Low" bucket), not the lowest non-zero bucket `"#d6f5d6"`
("Very Low") as the claim asserts. -/
theorem c2_counterexample :
    get_severity_color 1 3 = "#adebad" ∧
      get_severity_color 1 3 ≠ "#d6f5d6" := by
  rw [get_severity_color_buckets 1 3]
  decide

/-- Claim C2, amended: `get_severity_color` assigns colors by fixed bucket
thresholds of count relative to max: 0 maps to the no-coverage color,
below 20% of max to the lowest non-zero bucket, 20-40% / 40-60% / 60-80%
to the middle buckets, and at or above 80% to the highest-severity bucket;
with the tally `{"T1059": 3, "T1566": 1}` and max = 3, T1059's cell is the
highest-severity bucket and T1566's cell (at 33% of max) is the 20-40%
bucket, the second-lowest non-zero bucket. -/
theorem c2_severity_buckets (count max_count : ℕ) :
    (count = 0 → get_severity_color count max_count = "#ffffff") ∧
    (0 < count → 4 * max_count ≤ 5 * count →
      get_severity_color count max_count = "#ff6666") ∧
    (0 < count → 3 * max_count ≤ 5 * count → 5 * count < 4 * max_count →
      get_severity_color count max_count = "#ffb366") ∧
    (0 < count → 2 * max_count ≤ 5 * count → 5 * count < 3 * max_count →
      get_severity_color count max_count = "#ffcc66") ∧
    (0 < count → 1 * max_count ≤ 5 * count → 5 * count < 2 * max_count →
      get_severity_color count max_count = "#adebad") ∧
    (0 < count → 5 * count < 1 * max_count →
      get_severity_color count max_count = "#d6f5d6") ∧
    get_severity_color 3 3 = "#ff6666" ∧
    get_severity_color 1 3 = "#adebad" := by
  refine ⟨?_, ?_, ?_, ?_, ?_, ?_, ?_, ?_⟩
  · intro h0
    rw [get_severity_color_buckets, if_pos h0]
  · intro hc h8
    rw [get_severity_color_buckets]
    split_ifs <;> first | rfl | omega
  · intro hc h6 h6'
    rw [get_severity_color_buckets]
    split_ifs <;> first | rfl | omega
  · intro hc h4 h4'
    rw [get_severity_color_buckets]
    split_ifs <;> first | rfl | omega
  · intro hc h2 h2'
    rw [get_severity_color_buckets]
    split_ifs <;> first | rfl | omega
  · intro hc h0'
    rw [get_severity_color_buckets]
    split_ifs <;> first | rfl | omega
  · rw [get_severity_color_buckets]
    decide
  · rw [get_severity_color_buckets]
    decide

/-- Witness for C2's amended theorem: a count at exactly 40% of max falls
in the 40-60% bucket. -/
theorem c2_severity_buckets_witness :
    get_severity_color 2 5 = "#ffcc66" :=
  (c2_severity_buckets 2 5).2.2.2.1 (by decide) (by decide) (by decide)

/-- Claim C8: when the uploaded table contains neither a column named
exactly `Description` nor one named exactly `description`, processing
reports an error and produces nothing: no appended columns, no tally, no
matrix. -/
theorem c8_missing_description_column (sim : String → List ℚ)
    (model : Option Unit) (techs : List Technique)
    (embs : Option (List (List ℚ))) (objs : List StixObject)
    (df : DataFrame)
    (h1 : "Description" ∉ df.columns) (h2 : "description" ∉ df.columns) :
    process_upload sim model techs embs objs df =
      Except.error "Your CSV must contain a Description column." := by
  have hc1 : df.columns.contains "Description" = false := by
    rw [Bool.eq_false_iff]
    intro hc
    exact h1 (by simpa [List.contains] using hc)
  have hc2 : df.columns.contains "description" = false := by
    rw [Bool.eq_false_iff]
    intro hc
    exact h2 (by simpa [List.contains] using hc)
  unfold process_upload requiredColumn
  rw [hc1, hc2]
  rfl

/-- Witness for C8: a table whose only column is `DESCRIPTION` (a different
casing) is rejected. -/
theorem c8_missing_description_column_witness :
    process_upload (fun _ => []) none [] none []
      { columns := ["DESCRIPTION"], rows := [] } =
      Except.error "Your CSV must contain a Description column." :=
  c8_missing_description_column (fun _ => []) none [] none []
    { columns := ["DESCRIPTION"], rows := [] } (by decide) (by decide)

/-- Claim C4: the ordered tactic list follows exactly the fixed 14-phase
canonical kill-chain sequence regardless of document order: its shortname
sequence is the canonical sequence filtered to the shortnames present in
the document (hence determined by shortname membership alone), it holds no
duplicate shortname, and every retained tactic's shortname belongs to the
14-entry table. -/
theorem c4_canonical_order (objs : List StixObject) :
    ((load_tactics_data objs).map (fun t => t.shortname) =
      kill_chain_order.filter
        (fun p => (load_tactics_raw objs).any (fun t => t.shortname = p))) ∧
    ((load_tactics_data objs).map (fun t => t.shortname)).Nodup ∧
    (∀ t ∈ load_tactics_data objs, t.shortname ∈ kill_chain_order) ∧
    (∀ objs2 : List StixObject,
      (∀ s : String,
        (∃ t ∈ load_tactics_raw objs, t.shortname = s) ↔
          (∃ t ∈ load_tactics_raw objs2, t.shortname = s)) →
      (load_tactics_data objs).map (fun t => t.shortname) =
        (load_tactics_data objs2).map (fun t => t.shortname)) := by
  have key : ∀ os : List StixObject,
      (load_tactics_data os).map (fun t => t.shortname) =
        kill_chain_order.filter
          (fun p => (load_tactics_raw os).any (fun t => t.shortname = p)) :=
    fun os => filterMap_shortnames kill_chain_order (load_tactics_raw os)
  refine ⟨key objs, ?_, ?_, ?_⟩
  · rw [key objs]
    exact List.Nodup.filter _ (by decide)
  · intro t ht
    unfold load_tactics_data at ht
    rw [List.mem_filterMap] at ht
    obtain ⟨p, hp, hfind⟩ := ht
    rw [(shortnameLookup_some hfind).1]
    exact hp
  · intro objs2 hsame
    rw [key objs, key objs2]
    apply List.filter_congr
    intro p _
    have h1 := List.any_eq_true (l := load_tactics_raw objs)
      (p := fun t => decide (t.shortname = p))
    have h2 := List.any_eq_true (l := load_tactics_raw objs2)
      (p := fun t => decide (t.shortname = p))
    by_cases hx : ∃ t ∈ load_tactics_raw objs, t.shortname = p
    · have hx2 := (hsame p).mp hx
      rw [show ((load_tactics_raw objs).any fun t => t.shortname = p) = true
          from h1.mpr (by simpa using hx),
        show ((load_tactics_raw objs2).any fun t => t.shortname = p) = true
          from h2.mpr (by simpa using hx2)]
    · have hx2 : ¬ ∃ t ∈ load_tactics_raw objs2, t.shortname = p :=
        fun hc => hx ((hsame p).mpr hc)
      rw [show ((load_tactics_raw objs).any fun t => t.shortname = p) = false
          by rw [Bool.eq_false_iff]; intro hc; exact hx (by simpa using h1.mp hc),
        show ((load_tactics_raw objs2).any fun t => t.shortname = p) = false
          by rw [Bool.eq_false_iff]; intro hc; exact hx2 (by simpa using h2.mp hc)]

/-- Witness for C4: a document listing `impact` before `initial-access`
still yields the canonical order, and each kept shortname is canonical. -/
theorem c4_canonical_order_witness :
    (load_tactics_data
        [{ type := "x-mitre-tactic", name := some "Impact",
           description := none, x_mitre_shortname := some "impact",
           external_references := [{ external_id := some "TA0040",
                                     url := some "" }],
           kill_chain_phases := [] },
         { type := "x-mitre-tactic", name := some "Initial Access",
           description := none, x_mitre_shortname := some "initial-access",
           external_references := [{ external_id := some "TA0001",
                                     url := some "" }],
           kill_chain_phases := [] }]).map (fun t => t.shortname) =
      ["initial-access", "impact"] ∧
    "initial-access" ∈ kill_chain_order := by
  constructor
  · rw [(c4_canonical_order _).1]
    decide
  · exact (c4_canonical_order
      [{ type := "x-mitre-tactic", name := some "Impact",
         description := none, x_mitre_shortname := some "impact",
         external_references := [{ external_id := some "TA0040",
                                   url := some "" }],
         kill_chain_phases := [] },
       { type := "x-mitre-tactic", name := some "Initial Access",
         description := none, x_mitre_shortname := some "initial-access",
         external_references := [{ external_id := some "TA0001",
                                   url := some "" }],
         kill_chain_phases := [] }]).2.2.1
      { id := "TA0001", name := "Initial Access",
        shortname := "initial-access" } (by decide)

/-- Claim C1: for every loaded taxonomy and tally, the rendered matrix has
one row per ordered tactic (in order), and any non-sub technique whose
phase-name list contains a row's tactic display name appears as a cell of
that row (membership decided by comparing phase names against the tactic's
display name, as in `organize_techniques_by_tactic`). -/
theorem c1_matrix_structure (objs : List StixObject)
    (tally : List (String × ℕ)) :
    ((render_attack_matrix_rows objs tally).map Prod.fst =
      load_tactics_data objs) ∧
    (∀ row ∈ render_attack_matrix_rows objs tally,
      ∀ T ∈ matrixTechniques objs,
        row.1.name ∈ T.tactics → T ∈ row.2.map (fun cell => cell.1)) := by
  constructor
  · unfold render_attack_matrix_rows
    rw [List.map_map]
    exact (List.map_congr_left (fun t _ => rfl)).trans (List.map_id' _)
  · intro row hrow T hT hname
    unfold render_attack_matrix_rows at hrow
    rw [List.mem_map] at hrow
    obtain ⟨t, ht, hrow⟩ := hrow
    subst hrow
    have hOrg : T ∈ organize_techniques_by_tactic objs
        (load_tactics_data objs) t.id := by
      unfold organize_techniques_by_tactic
      rw [List.mem_flatMap]
      refine ⟨T, hT, ?_⟩
      rw [List.mem_flatMap]
      refine ⟨t.name, hname, ?_⟩
      rw [List.mem_filterMap]
      exact ⟨t, ht, by rw [if_pos ⟨rfl, rfl⟩]⟩
    exact List.mem_map.mpr
      ⟨(T, dictGetD tally T.id 0,
          get_severity_color (dictGetD tally T.id 0) (maxTallyValue tally)),
        List.mem_map.mpr ⟨T, hOrg, rfl⟩, rfl⟩

/-- Witness for C1: in a one-tactic, one-technique document the technique
tagged with the tactic's display name appears as a cell of that tactic's
row. -/
theorem c1_matrix_structure_witness :
    { id := "T1566", name := "Phishing", description := "d",
      tactics := ["Initial Access"] : MatrixTechnique } ∈
      (({ id := "TA0001", name := "Initial Access",
          shortname := "initial-access" : TacticData },
        [({ id := "T1566", name := "Phishing", description := "d",
            tactics := ["Initial Access"] : MatrixTechnique }, 0,
          "#ffffff")]).2.map (fun cell => cell.1)) :=
  (c1_matrix_structure
      [{ type := "x-mitre-tactic", name := some "Initial Access",
         description := none, x_mitre_shortname := some "initial-access",
         external_references := [{ external_id := some "TA0001",
                                   url := some "" }],
         kill_chain_phases := [] },
       { type := "attack-pattern", name := some "Phishing",
         description := some "d", x_mitre_shortname := none,
         external_references := [{ external_id := some "T1566",
                                   url := some "u" }],
         kill_chain_phases := [{ phase_name := some "Initial Access" }] }]
      []).2
    ({ id := "TA0001", name := "Initial Access",
       shortname := "initial-access" },
     [({ id := "T1566", name := "Phishing", description := "d",
         tactics := ["Initial Access"] }, 0, "#ffffff")])
    (by decide)
    { id := "T1566", name := "Phishing", description := "d",
      tactics := ["Initial Access"] }
    (by decide) (by decide)

/-- Claim C7: `map_to_mitre` returns the `"N/A"` sentinel whenever the
model or the embeddings are `None`; and when both are available, the score
row has one entry per technique, and the technique list is nonempty (as
`main` guarantees), the argmax index is in bounds and the result is the
technique of the loaded taxonomy at that index. -/
theorem c7_match_safety (sim : String → List ℚ) (description : String)
    (model : Option Unit) (techs : List Technique)
    (embs : Option (List (List ℚ))) :
    (model = none ∨ embs = none →
      map_to_mitre sim description model techs embs = naSentinel) ∧
    (∀ u : Unit, ∀ es : List (List ℚ), model = some u → embs = some es →
      (sim description).length = techs.length → techs ≠ [] →
      ∃ i : ℕ, ∃ hi : i < techs.length,
        pyArgmax (sim description) = some i ∧
        map_to_mitre sim description model techs embs =
          mkResult (techs.get ⟨i, hi⟩)) := by
  constructor
  · rintro (h | h)
    · subst h; rfl
    · subst h; cases model <;> rfl
  · intro u es hm he hlen hne
    subst hm; subst he
    have hsne : sim description ≠ [] := by
      intro hc
      apply hne
      have := hlen
      rw [hc] at this
      exact List.eq_nil_of_length_eq_zero this.symm
    obtain ⟨i, hA⟩ := pyArgmax_isSome hsne
    obtain ⟨m, hilt, _, _, _⟩ := pyArgmax_spec (sim description) i hA
    have hi : i < techs.length := hlen ▸ hilt
    refine ⟨i, hi, hA, ?_⟩
    have heq : map_to_mitre sim description (some u) techs (some es) =
        matchScores (sim description) techs := rfl
    rw [heq, matchScores_of_argmax_some techs hA,
      List.getElem?_eq_getElem hi]
    rfl

/-- Witness for C7: both branches at concrete inputs — a missing model
yields the sentinel, and an available model with a one-score row selects
the only technique. -/
theorem c7_match_safety_witness :
    map_to_mitre oneSim "d" none [oneTech] none = naSentinel ∧
    (∃ i : ℕ, ∃ hi : i < [oneTech].length,
      pyArgmax (oneSim "d") = some i ∧
      map_to_mitre oneSim "d" (some ()) [oneTech] (some [[1]]) =
        mkResult ([oneTech].get ⟨i, hi⟩)) :=
  ⟨(c7_match_safety oneSim "d" none [oneTech] none).1 (Or.inl rfl),
   (c7_match_safety oneSim "d" (some ()) [oneTech] (some [[1]])).2 () [[1]]
      rfl rfl (by decide) (by decide)⟩

/-- Claim C9: the matcher selects the entry at the index of the maximum
cosine-similarity score; on ties the first-occurring maximal index (in
taxonomy list order) is selected: every score is at most the selected one
and every strictly earlier score is strictly smaller. -/
theorem c9_stable_argmax (sim : String → List ℚ) (description : String)
    (techs : List Technique) (es : List (List ℚ))
    (hlen : (sim description).length = techs.length) (hne : techs ≠ []) :
    ∃ i : ℕ, ∃ hi : i < techs.length, ∃ hs : i < (sim description).length,
      map_to_mitre sim description (some ()) techs (some es) =
        mkResult (techs.get ⟨i, hi⟩) ∧
      (∀ j : ℕ, ∀ x ∈ (sim description)[j]?,
        x ≤ (sim description).get ⟨i, hs⟩) ∧
      (∀ j : ℕ, j < i → ∀ x ∈ (sim description)[j]?,
        x < (sim description).get ⟨i, hs⟩) := by
  have hsne : sim description ≠ [] := by
    intro hc
    apply hne
    have := hlen
    rw [hc] at this
    exact List.eq_nil_of_length_eq_zero this.symm
  obtain ⟨i, hA⟩ := pyArgmax_isSome hsne
  obtain ⟨m, hilt, hget, hle, hlt⟩ := pyArgmax_spec (sim description) i hA
  have hi : i < techs.length := hlen ▸ hilt
  have hm : (sim description).get ⟨i, hilt⟩ = m := by
    have := hget
    rw [List.getElem?_eq_getElem hilt] at this
    simpa using this
  refine ⟨i, hi, hilt, ?_, ?_, ?_⟩
  · have heq : map_to_mitre sim description (some ()) techs (some es) =
        matchScores (sim description) techs := rfl
    rw [heq, matchScores_of_argmax_some techs hA,
      List.getElem?_eq_getElem hi]
    rfl
  · intro j x hx
    rw [hm]
    exact hle j x hx
  · intro j hj x hx
    rw [hm]
    exact hlt j hj x hx

/-- Witness for C9: with the tied score row `[2, 3, 3]` the matcher picks
index 1, the first occurrence of the maximum. -/
theorem c9_stable_argmax_witness :
    ∃ i : ℕ, ∃ hi : i < threeTechs.length,
      ∃ hs : i < (tiedSim "d").length,
      map_to_mitre tiedSim "d" (some ()) threeTechs (some [[1], [1], [1]]) =
        mkResult (threeTechs.get ⟨i, hi⟩) ∧
      (∀ j : ℕ, ∀ x ∈ (tiedSim "d")[j]?, x ≤ (tiedSim "d").get ⟨i, hs⟩) ∧
      (∀ j : ℕ, j < i → ∀ x ∈ (tiedSim "d")[j]?,
        x < (tiedSim "d").get ⟨i, hs⟩) :=
  c9_stable_argmax tiedSim "d" threeTechs [[1], [1], [1]]
    (by decide) (by decide)

/-- Claim C3: the tally values of the aggregation loop sum to the number of
records whose match succeeded (did not return the `"N/A"` or `"Error"`
sentinel), and every tally key comes from a successful record's label —
sentinel records contribute no key. -/
theorem c3_tally_sum (sim : String → List ℚ) (model : Option Unit)
    (techs : List Technique) (embs : Option (List (List ℚ)))
    (records : List String) :
    sumValues (buildTally (records.map (fun d =>
        (map_to_mitre sim d model techs embs).2.1))) =
      (records.filter (fun d =>
        matchSucceeded (map_to_mitre sim d model techs embs))).length ∧
    (∀ kv ∈ buildTally (records.map (fun d =>
        (map_to_mitre sim d model techs embs).2.1)),
      ∃ d ∈ records,
        matchSucceeded (map_to_mitre sim d model techs embs) = true ∧
          kv.1 = keyOfLabel ((map_to_mitre sim d model techs embs).2.1)) := by
  constructor
  · unfold buildTally
    rw [sumValues_foldl_tallyStep]
    rw [show sumValues [] = 0 from rfl, Nat.zero_add]
    rw [List.countP_map]
    have hfun : ((fun l => pyContainsChar '-' l) ∘ fun d =>
        (map_to_mitre sim d model techs embs).2.1) =
        fun d => matchSucceeded (map_to_mitre sim d model techs embs) := by
      funext d
      exact dash_iff_success sim d model techs embs
    rw [hfun, List.countP_eq_length_filter]
  · intro kv hkv
    unfold buildTally at hkv
    rcases mem_foldl_tallyStep _ [] hkv with h | ⟨l, hl, hdash, hkey, _⟩
    · simp at h
    · rw [List.mem_map] at hl
      obtain ⟨d, hd, hfd⟩ := hl
      subst hfd
      refine ⟨d, hd, ?_, hkey⟩
      rw [← dash_iff_success]
      exact hdash

/-- Witness for C3 at a concrete run: one successful record, tally sum 1. -/
theorem c3_tally_sum_witness :
    sumValues (buildTally (["r"].map (fun d =>
        (map_to_mitre oneSim d (some ()) [oneTech] (some [[1]])).2.1))) =
      (["r"].filter (fun d =>
        matchSucceeded (map_to_mitre oneSim d (some ()) [oneTech]
          (some [[1]])))).length :=
  (c3_tally_sum oneSim (some ()) [oneTech] (some [[1]]) ["r"]).1

/-- Claim C5: no entry whose id contains a dot appears in the simplified
technique list, and no tally key contains a dot, for every taxonomy
document and every record list. -/
theorem c5_no_sub_entries (objs : List StixObject) (sim : String → List ℚ)
    (model : Option Unit) (embs : Option (List (List ℚ)))
    (records : List String) :
    (∀ t ∈ load_mitre_data_techniques objs,
      pyContainsChar '.' t.id = false) ∧
    (∀ kv ∈ buildTally (records.map (fun d =>
        (map_to_mitre sim d model (load_mitre_data_techniques objs)
          embs).2.1)),
      pyContainsChar '.' kv.1 = false) := by
  constructor
  · exact fun t ht => load_mitre_data_no_dot ht
  · intro kv hkv
    unfold buildTally at hkv
    rcases mem_foldl_tallyStep _ [] hkv with h | ⟨l, hl, hdash, hkey, _⟩
    · simp at h
    · rw [List.mem_map] at hl
      obtain ⟨d, hd, hfd⟩ := hl
      subst hfd
      rcases map_to_mitre_cases sim d model
          (load_mitre_data_techniques objs) embs with h | h | ⟨t, ht, h⟩
      · rw [h] at hdash
        exact absurd hdash (by decide)
      · rw [h] at hdash
        exact absurd hdash (by decide)
      · rw [h] at hkey
        rw [hkey]
        exact no_dot_keyOfLabel (load_mitre_data_no_dot ht)

/-- Witness for C5: the technique loaded from `smallDoc` has a dot-free id,
and the tally key of a run over it is dot-free. -/
theorem c5_no_sub_entries_witness :
    pyContainsChar '.' phishTech.id = false ∧
    pyContainsChar '.' ("T1566", (1 : ℕ)).1 = false :=
  ⟨(c5_no_sub_entries smallDoc oneSim (some ()) (some [[1]]) ["r"]).1
      phishTech (by decide),
   (c5_no_sub_entries smallDoc oneSim (some ()) (some [[1]]) ["r"]).2
      ("T1566", 1) (by decide)⟩

/-- Claim C6, counterexample: with a loaded taxonomy whose only technique
id is `"A-B"` (dash inside the id, no dot), a successful match puts the
key `"A"` in the tally, and `"A"` is not the id of any loaded entry. -/
theorem c6_counterexample :
    ("A", 1) ∈ buildTally (["r"].map (fun d =>
        (map_to_mitre oneSim d (some ())
          (load_mitre_data_techniques dashIdDoc) (some [[1]])).2.1)) ∧
    "A" ∉ (load_mitre_data_techniques dashIdDoc).map (fun t => t.id) := by
  decide

/-- Claim C6, amended: provided every loaded technique id contains no dash
and carries no surrounding whitespace (true of the real dataset's
`T`-numbered ids), every tally key is the id of a loaded entry and every
tally value is at least 1, for every record list. -/
theorem c6_tally_keys (objs : List StixObject) (sim : String → List ℚ)
    (model : Option Unit) (embs : Option (List (List ℚ)))
    (records : List String)
    (hid : ∀ t ∈ load_mitre_data_techniques objs,
      pyContainsChar '-' t.id = false ∧ pyStrip t.id = t.id) :
    ∀ kv ∈ buildTally (records.map (fun d =>
        (map_to_mitre sim d model (load_mitre_data_techniques objs)
          embs).2.1)),
      kv.1 ∈ (load_mitre_data_techniques objs).map (fun t => t.id) ∧
        1 ≤ kv.2 := by
  intro kv hkv
  unfold buildTally at hkv
  rcases mem_foldl_tallyStep _ [] hkv with h | ⟨l, hl, hdash, hkey, hval⟩
  · simp at h
  · rw [List.mem_map] at hl
    obtain ⟨d, hd, hfd⟩ := hl
    subst hfd
    rcases map_to_mitre_cases sim d model
        (load_mitre_data_techniques objs) embs with h | h | ⟨t, ht, h⟩
    · rw [h] at hdash
      exact absurd hdash (by decide)
    · rw [h] at hdash
      exact absurd hdash (by decide)
    · rw [h] at hkey
      have hkid : keyOfLabel ((mkResult t).2.1) = t.id :=
        keyOfLabel_eq_id (hid t ht).1 (hid t ht).2
      rw [hkey, hkid]
      exact ⟨List.mem_map.mpr ⟨t, ht, rfl⟩, hval⟩

/-- Witness for C6's amended theorem: over `smallDoc` (id `T1566`) the
single tally pair's key is a loaded id with count 1. -/
theorem c6_tally_keys_witness :
    ("T1566", (1 : ℕ)).1 ∈
        (load_mitre_data_techniques smallDoc).map (fun t => t.id) ∧
      1 ≤ ("T1566", (1 : ℕ)).2 :=
  c6_tally_keys smallDoc oneSim (some ()) (some [[1]]) ["r"] (by decide)
    ("T1566", 1) (by decide)

/-- Claim C10, counterexample: for a technique id with no dash but a
trailing blank, the tally key differs from the id — splitting at the first
dash and stripping does not recover such an id exactly. -/
theorem c10_counterexample :
    pyContainsChar '-' paddedIdTech.id = false ∧
    keyOfLabel ((map_to_mitre oneSim "d" (some ()) [paddedIdTech]
        (some [[1]])).2.1) ≠ paddedIdTech.id := by
  decide

/-- Claim C10, amended: provided the matched technique's id contains no
dash and is unchanged by whitespace stripping, the tally key equals the id
exactly; moreover every successful label contains a dash (even when the
technique name contains dashes), so every successful match increments the
tally sum by one. -/
theorem c10_tally_key (t : Technique)
    (h1 : pyContainsChar '-' t.id = false) (h2 : pyStrip t.id = t.id) :
    keyOfLabel ((mkResult t).2.1) = t.id ∧
    pyContainsChar '-' ((mkResult t).2.1) = true ∧
    (∀ tally, sumValues (tallyStep tally ((mkResult t).2.1)) =
      sumValues tally + 1) := by
  refine ⟨keyOfLabel_eq_id h1 h2, dash_mem_mkResult t, ?_⟩
  intro tally
  unfold tallyStep
  rw [if_pos (dash_mem_mkResult t)]
  exact sumValues_dictIncr tally _

/-- Witness for C10's amended theorem at a concrete technique. -/
theorem c10_tally_key_witness :
    keyOfLabel ((mkResult oneTech).2.1) = oneTech.id ∧
    pyContainsChar '-' ((mkResult oneTech).2.1) = true ∧
    (∀ tally, sumValues (tallyStep tally ((mkResult oneTech).2.1)) =
      sumValues tally + 1) :=
  c10_tally_key oneTech (by decide) (by decide)

end MitreApp
